import Mathlib

/-!
Shallow embedding of the eurostat-downloader program (Rust), covering the
parts of `src/parser.rs`, `src/downloader.rs`, `src/main.rs` and
`src/cli.rs` that the specification claims speak about.

Conventions of the embedding:
* `PathBuf` is modelled as `String`; `Path::join` with a relative file
  name (the only use in this program) appends a separator and the name.
* Machine integers (`u64`, `usize`) are modelled as `Nat`; the only
  subtraction performed (`total - successful` in `download_all`) cannot
  underflow, so `Nat` subtraction is faithful.
* Fallible operations return `Except String`; a Rust panic is modelled
  as `Option.none`.
* Wall-clock durations are opaque inputs (`Nat`), never computed.
-/

namespace Eurostat

/-- `types.rs` `InventoryEntry`: one manifest row. -/
structure InventoryEntry where
  code : String
  entry_type : String
  source_dataset : String
  last_data_change : String
  last_structural_change : String
  tsv_url : Option String
  csv_url : Option String
  sdmx_url : Option String
  structure_url : Option String
  browser_url : Option String
deriving DecidableEq, Repr

/-- `types.rs` `FileFormat`. -/
inductive FileFormat where
  | TSV
  | CSV
  | SDMX
deriving DecidableEq, Repr

/-- `types.rs` `DownloadTask`: one transfer unit. -/
structure DownloadTask where
  entry : InventoryEntry
  url : String
  output_path : String
  format : FileFormat
deriving DecidableEq, Repr

/-- `types.rs` `DownloadStatus`. -/
inductive DownloadStatus where
  | Success
  | Failed
deriving DecidableEq, Repr

/-- `types.rs` `DownloadReport`: one task outcome (`duration` is an opaque
wall-clock measurement). -/
structure DownloadReport where
  task : DownloadTask
  status : DownloadStatus
  bytes_downloaded : Nat
  duration : Nat
  error : Option String
deriving DecidableEq, Repr

/-- `types.rs` `DownloadSummary`. -/
structure DownloadSummary where
  total_downloads : Nat
  successful_downloads : Nat
  failed_downloads : Nat
  total_bytes_downloaded : Nat
  total_duration : Nat
  reports : List DownloadReport
deriving DecidableEq, Repr

/-- `Path::join` for a relative file name (`downloader.rs` line 198 joins
the output directory with a plain file name). -/
def pathJoin (dir name : String) : String := dir ++ "/" ++ name

/-- The `match format` arm of `create_task` (`downloader.rs` lines 191-195). -/
def formatExtension : FileFormat → String
  | .TSV => "tsv"
  | .CSV => "csv"
  | .SDMX => "sdmx"

/-- `downloader.rs` `create_task` (lines 184-206). -/
def create_task (entry : InventoryEntry) (url : String) (output_dir : String)
    (format : FileFormat) : DownloadTask :=
  let extension := formatExtension format
  let filename := entry.code ++ "_" ++ entry.entry_type ++ "." ++ extension
  { entry := entry
    url := url
    output_path := pathJoin output_dir filename
    format := format }

/-- One `if let Some(url) = ...` arm of `create_download_tasks`: pushes a
task when the URL field is present, nothing otherwise. -/
def optTask (o : Option String) (entry : InventoryEntry) (output_dir : String)
    (format : FileFormat) : List DownloadTask :=
  match o with
  | some url => [create_task entry url output_dir format]
  | none => []

/-- The body of the `for entry in inventory` loop of `create_download_tasks`
(`downloader.rs` lines 165-175): TSV, then CSV, then SDMX. -/
def entryTasks (entry : InventoryEntry) (output_dir : String) : List DownloadTask :=
  optTask entry.tsv_url entry output_dir .TSV
    ++ optTask entry.csv_url entry output_dir .CSV
    ++ optTask entry.sdmx_url entry output_dir .SDMX

/-- `downloader.rs` `create_download_tasks` (lines 161-182): the imperative
loop pushing tasks entry by entry, as a left fold over the inventory. -/
def create_download_tasks (inventory : List InventoryEntry) (output_dir : String) :
    List DownloadTask :=
  inventory.foldl (fun tasks e => tasks ++ entryTasks e output_dir) []

/-- The URL field of an entry selected by format, in the sense of the three
`if let` tests of `create_download_tasks`. -/
def urlOf (e : InventoryEntry) : FileFormat → Option String
  | .TSV => e.tsv_url
  | .CSV => e.csv_url
  | .SDMX => e.sdmx_url

/-- Number of present downloadable URLs of one entry. -/
def presentUrlCount (e : InventoryEntry) : Nat :=
  (if e.tsv_url.isSome then 1 else 0)
    + (if e.csv_url.isSome then 1 else 0)
    + (if e.sdmx_url.isSome then 1 else 0)

theorem create_download_tasks_eq_flatMap (inventory : List InventoryEntry)
    (output_dir : String) :
    create_download_tasks inventory output_dir
      = inventory.flatMap (fun e => entryTasks e output_dir) := by
  have key : ∀ (inv : List InventoryEntry) (init : List DownloadTask),
      inv.foldl (fun tasks e => tasks ++ entryTasks e output_dir) init
        = init ++ inv.flatMap (fun e => entryTasks e output_dir) := by
    intro inv
    induction inv with
    | nil => intro init; simp
    | cons e rest ih =>
        intro init
        simp [List.foldl_cons, ih, List.flatMap_cons, List.append_assoc]
  simpa using key inventory []

theorem entryTasks_length (e : InventoryEntry) (output_dir : String) :
    (entryTasks e output_dir).length = presentUrlCount e := by
  unfold entryTasks presentUrlCount
  cases e.tsv_url <;> cases e.csv_url <;> cases e.sdmx_url <;>
    simp [optTask]

/-- Fuel-indexed body of Rust `slice::chunks` for chunk size `m + 1`:
each step takes the next `m + 1` elements. `fuel ≥ l.length` makes the
fuel irrelevant (every step consumes at least one element). -/
def chunksFuel (m : Nat) : Nat → List α → List (List α)
  | _, [] => []
  | 0, l => [l]
  | fuel + 1, a :: l => (a :: l.take m) :: chunksFuel m fuel (l.drop m)

/-- Rust `slice::chunks(m + 1)` on a list. -/
def chunksPos (m : Nat) (l : List α) : List (List α) :=
  chunksFuel m l.length l

/-- Rust `slice::chunks(n)`: panics when `n = 0` (modelled as `none`),
otherwise yields the consecutive chunks of size at most `n`. -/
def sliceChunks (n : Nat) (l : List α) : Option (List (List α)) :=
  match n with
  | 0 => none
  | m + 1 => some (chunksPos m l)

theorem chunksFuel_flatten (m : Nat) :
    ∀ (fuel : Nat) (l : List α), l.length ≤ fuel →
      (chunksFuel m fuel l).flatten = l := by
  intro fuel
  induction fuel with
  | zero =>
      intro l h
      have : l = [] := List.length_eq_zero.mp (Nat.le_zero.mp h)
      subst this
      rfl
  | succ fuel ih =>
      intro l h
      cases l with
      | nil => rfl
      | cons a l =>
          have hlen : (l.drop m).length ≤ fuel := by
            simp only [List.length_drop]
            simp only [List.length_cons] at h
            omega
          simp [chunksFuel, List.flatten, ih (l.drop m) hlen, List.take_append_drop]

theorem chunksPos_flatten (m : Nat) (l : List α) : (chunksPos m l).flatten = l :=
  chunksFuel_flatten m l.length l (Nat.le_refl _)

theorem chunksFuel_length_le (m : Nat) :
    ∀ (fuel : Nat) (l : List α), l.length ≤ fuel →
      ∀ c ∈ chunksFuel m fuel l, c.length ≤ m + 1 := by
  intro fuel
  induction fuel with
  | zero =>
      intro l h c hc
      have : l = [] := List.length_eq_zero.mp (Nat.le_zero.mp h)
      subst this
      simp [chunksFuel] at hc
  | succ fuel ih =>
      intro l h c hc
      cases l with
      | nil => simp [chunksFuel] at hc
      | cons a l =>
          simp only [chunksFuel, List.mem_cons] at hc
          rcases hc with hc | hc
          · subst hc
            simp only [List.length_cons]
            have := List.length_take_le m l
            omega
          · exact ih (l.drop m)
              (by simp only [List.length_drop]; simp only [List.length_cons] at h; omega)
              c hc

theorem chunksFuel_eq_nil_iff (m fuel : Nat) (l : List α) :
    chunksFuel m fuel l = [] ↔ l = [] := by
  cases fuel with
  | zero => cases l <;> simp [chunksFuel]
  | succ fuel => cases l <;> simp [chunksFuel]

theorem chunksFuel_dropLast_length (m : Nat) :
    ∀ (fuel : Nat) (l : List α), l.length ≤ fuel →
      ∀ c ∈ (chunksFuel m fuel l).dropLast, c.length = m + 1 := by
  intro fuel
  induction fuel with
  | zero =>
      intro l h c hc
      have : l = [] := List.length_eq_zero.mp (Nat.le_zero.mp h)
      subst this
      simp [chunksFuel] at hc
  | succ fuel ih =>
      intro l h c hc
      cases l with
      | nil => simp [chunksFuel] at hc
      | cons a l =>
          simp only [chunksFuel] at hc
          by_cases hrest : l.drop m = []
          · rw [hrest] at hc
            have : chunksFuel m fuel ([] : List α) = [] := by
              cases fuel <;> rfl
            rw [this] at hc
            simp [List.dropLast] at hc
          · have hne : chunksFuel m fuel (l.drop m) ≠ [] := by
              intro hnil
              exact hrest ((chunksFuel_eq_nil_iff m fuel (l.drop m)).mp hnil)
            rcases List.exists_cons_of_ne_nil hne with ⟨r, rs, hr⟩
            rw [hr] at hc
            rw [List.dropLast_cons₂] at hc
            rcases List.mem_cons.mp hc with hc | hc
            · subst hc
              have hm : m ≤ l.length := by
                by_contra hlt
                push_neg at hlt
                exact hrest (List.drop_eq_nil_of_le (Nat.le_of_lt hlt))
              simp [List.length_take, Nat.min_eq_left hm]
            · have hlen : (l.drop m).length ≤ fuel := by
                simp only [List.length_drop]
                simp only [List.length_cons] at h
                omega
              have := ih (l.drop m) hlen c (by rw [hr]; exact hc)
              exact this

theorem chunksPos_length_le (m : Nat) (l : List α) :
    ∀ c ∈ chunksPos m l, c.length ≤ m + 1 :=
  chunksFuel_length_le m l.length l (Nat.le_refl _)

theorem chunksPos_dropLast_length (m : Nat) (l : List α) :
    ∀ c ∈ (chunksPos m l).dropLast, c.length = m + 1 :=
  chunksFuel_dropLast_length m l.length l (Nat.le_refl _)

/-- The report-collection loop of `download_all` (`downloader.rs` lines
37-51): chunk the tasks by the parallelism bound, run each chunk, extend
the report list with the chunk's results in order (`join_all` keeps the
submission order of its futures). One task's transfer is abstracted as a
function `exec` from task to report; `none` models the `chunks(0)` panic. -/
def scheduleReports (parallelism : Nat) (exec : DownloadTask → DownloadReport)
    (tasks : List DownloadTask) : Option (List DownloadReport) :=
  (sliceChunks parallelism tasks).map fun cs => (cs.map (fun c => c.map exec)).flatten

/-- The aggregation of `download_all` (`downloader.rs` lines 53-70): counts,
byte total and the report list, with the run's wall-clock duration opaque. -/
def mkSummary (reports : List DownloadReport) (total_duration : Nat) : DownloadSummary :=
  { total_downloads := reports.length
    successful_downloads := (reports.filter fun r => r.status == DownloadStatus.Success).length
    failed_downloads :=
      reports.length - (reports.filter fun r => r.status == DownloadStatus.Success).length
    total_bytes_downloaded := (reports.map fun r => r.bytes_downloaded).sum
    total_duration := total_duration
    reports := reports }

/-- `downloader.rs` `download_all` (lines 27-77): build the tasks, run them
chunk by chunk, aggregate, then attempt the statistics write — whose failure
is only logged (`if let Err(e) = ... error!(...)`, lines 72-74) before
`Ok(summary)` is returned. The filesystem outcome of `write_stats_csv` is an
input (`statsWrite`); the value returned is paired with the error-log lines
emitted. `none` models the `chunks(0)` panic. -/
def download_all (parallelism : Nat) (exec : DownloadTask → DownloadReport)
    (inventory : List InventoryEntry) (output_dir : String) (total_duration : Nat)
    (statsWrite : Except String Unit) :
    Option (Except String DownloadSummary × List String) :=
  let tasks := create_download_tasks inventory output_dir
  match scheduleReports parallelism exec tasks with
  | none => none
  | some reports =>
      let summary := mkSummary reports total_duration
      let log :=
        match statsWrite with
        | .error e => ["Failed to write stats CSV: " ++ e]
        | .ok _ => []
      some (.ok summary, log)

/-- The returned value of `download_all`, log discarded. -/
def downloadAllResult (r : Option (Except String DownloadSummary × List String)) :
    Option (Except String DownloadSummary) :=
  r.map Prod.fst

/-- Process exit status of `main`. -/
inductive ExitStatus where
  | success
  | failure
deriving DecidableEq, Repr

/-- The exit logic of `main.rs` (lines 20-33 and 76-89): a parse error
returns `Err` at once; a download-phase error returns `Err`; otherwise
`Err("Some downloads failed")` when `failed_downloads > 0`, else `Ok(())`. -/
def mainResult (parseResult : Except String (List InventoryEntry))
    (downloadResult : Except String DownloadSummary) : ExitStatus :=
  match parseResult with
  | .error _ => .failure
  | .ok _ =>
      match downloadResult with
      | .error _ => .failure
      | .ok summary => if summary.failed_downloads > 0 then .failure else .success

/-- `cli.rs` `parallelism` argument (lines 16-21): a plain `usize` value
with no extra validator or range, so clap accepts exactly the strings
`usize::from_str` accepts — an optional leading plus sign and then at
least one decimal digit (the `usize` overflow bound is out of scope) —
in particular `"0"`. -/
def cliParseParallelism (s : String) : Option Nat :=
  let ds :=
    match s.data with
    | '+' :: rest => rest
    | l => l
  if !ds.isEmpty && ds.all Char.isDigit then
    some (ds.foldl (fun n c => n * 10 + (c.toNat - 48)) 0)
  else
    none

theorem scheduleReports_pos (m : Nat) (exec : DownloadTask → DownloadReport)
    (tasks : List DownloadTask) :
    scheduleReports (m + 1) exec tasks = some (tasks.map exec) := by
  unfold scheduleReports sliceChunks
  simp only [Option.map_some']
  congr 1
  rw [← List.map_flatten, chunksPos_flatten]

/-- One item of the response byte stream together with the fate of its
file write, as seen by the loop of `download_file` (`downloader.rs` lines
113-133): the stream may yield an error (`readErr`), or a chunk of a given
size whose `write_all` fails (`writeErr`) or succeeds (`ok`). -/
inductive ChunkStep where
  | readErr (msg : String)
  | writeErr (size : Nat) (msg : String)
  | ok (size : Nat)
deriving DecidableEq, Repr

/-- An HTTP response as `download_file` consumes it: status code, declared
content length, and the byte stream. -/
structure RespModel where
  status : Nat
  content_length : Option Nat
  steps : List ChunkStep
deriving DecidableEq, Repr

/-- `http::StatusCode::is_success`, used at `downloader.rs` line 96:
the 2xx range. -/
def statusIsSuccess (code : Nat) : Bool := 200 ≤ code && code < 300

/-- `http::StatusCode::canonical_reason` for the registered codes
(reason phrases of the IANA registry as hard-coded in the `http` crate;
codes carrying an apostrophe or missing from the registry fall through
to the unknown marker). -/
def canonicalReason (code : Nat) : String :=
  match code with
  | 100 => "Continue"
  | 101 => "Switching Protocols"
  | 102 => "Processing"
  | 200 => "OK"
  | 201 => "Created"
  | 202 => "Accepted"
  | 203 => "Non Authoritative Information"
  | 204 => "No Content"
  | 205 => "Reset Content"
  | 206 => "Partial Content"
  | 207 => "Multi-Status"
  | 208 => "Already Reported"
  | 226 => "IM Used"
  | 300 => "Multiple Choices"
  | 301 => "Moved Permanently"
  | 302 => "Found"
  | 303 => "See Other"
  | 304 => "Not Modified"
  | 305 => "Use Proxy"
  | 307 => "Temporary Redirect"
  | 308 => "Permanent Redirect"
  | 400 => "Bad Request"
  | 401 => "Unauthorized"
  | 402 => "Payment Required"
  | 403 => "Forbidden"
  | 404 => "Not Found"
  | 405 => "Method Not Allowed"
  | 406 => "Not Acceptable"
  | 407 => "Proxy Authentication Required"
  | 408 => "Request Timeout"
  | 409 => "Conflict"
  | 410 => "Gone"
  | 411 => "Length Required"
  | 412 => "Precondition Failed"
  | 413 => "Payload Too Large"
  | 414 => "URI Too Long"
  | 415 => "Unsupported Media Type"
  | 416 => "Range Not Satisfiable"
  | 417 => "Expectation Failed"
  | 421 => "Misdirected Request"
  | 422 => "Unprocessable Entity"
  | 423 => "Locked"
  | 424 => "Failed Dependency"
  | 426 => "Upgrade Required"
  | 428 => "Precondition Required"
  | 429 => "Too Many Requests"
  | 431 => "Request Header Fields Too Large"
  | 451 => "Unavailable For Legal Reasons"
  | 500 => "Internal Server Error"
  | 501 => "Not Implemented"
  | 502 => "Bad Gateway"
  | 503 => "Service Unavailable"
  | 504 => "Gateway Timeout"
  | 505 => "HTTP Version Not Supported"
  | 506 => "Variant Also Negotiates"
  | 507 => "Insufficient Storage"
  | 508 => "Loop Detected"
  | 510 => "Not Extended"
  | 511 => "Network Authentication Required"
  | _ => "<unknown status code>"

/-- `Display` of `http::StatusCode`: the numeric code, a space, the
canonical reason phrase. -/
def statusDisplay (code : Nat) : String :=
  toString code ++ " " ++ canonicalReason code

/-- Observable suspension and write events of the transfer loop, used to
state the rate-limiting behaviour. Sleep durations are exact rationals
standing for the seconds value `chunk_size as f64 / rate_limit as f64`
passed to `tokio::time::sleep`. -/
inductive TraceEvent where
  | sleep (seconds : ℚ)
  | write (bytes : Nat)
deriving DecidableEq, Repr

/-- The rate-limit block of `download_file` (`downloader.rs` lines 116-124):
with a cap `R` configured it sleeps `size / R` seconds before the write,
with no cap it emits nothing. -/
def delayEvents (rate_limit : Option Nat) (size : Nat) : List TraceEvent :=
  match rate_limit with
  | none => []
  | some r => [.sleep ((size : ℚ) / (r : ℚ))]

/-- The `while let Some(chunk) = stream.next()` loop of `download_file`
(`downloader.rs` lines 113-133), started with `downloaded` bytes already
counted: returns the final `downloaded` counter, the trace of sleep/write
events, and the error that broke the loop (if any). A failing read maps
through `DownloaderError::DownloadError`, a failing write through
`DownloaderError::IoError`; `downloaded` advances only after a successful
write. -/
def runStream (rate_limit : Option Nat) :
    List ChunkStep → Nat → Nat × List TraceEvent × Option String
  | [], downloaded => (downloaded, [], none)
  | .readErr msg :: _, downloaded =>
      (downloaded, [], some ("Download failed: " ++ msg))
  | .writeErr size msg :: _, downloaded =>
      (downloaded, delayEvents rate_limit size, some ("IO error: " ++ msg))
  | .ok size :: rest, downloaded =>
      let r := runStream rate_limit rest (downloaded + size)
      (r.1, delayEvents rate_limit size ++ (.write size :: r.2.1), r.2.2)

/-- `downloader.rs` `download_file` (lines 79-159): send the request
(`send` is the transport outcome, `Err` mapping through
`DownloaderError::RequestError`), fail on a non-2xx status with the
`HTTP error: {status} for URL: {url}` message, create the file
(`createFile` the filesystem outcome, `Err` through
`DownloaderError::IoError`), then stream the body. The final report pairs
with the observable sleep/write trace; `duration` is the opaque wall-clock
measurement. Error strings carry the `Display` prefixes of
`DownloaderError` (`error.rs`). -/
def download_file (rate_limit : Option Nat) (task : DownloadTask)
    (send : Except String RespModel) (createFile : Except String Unit)
    (duration : Nat) : DownloadReport × List TraceEvent :=
  match send with
  | .error e =>
      ({ task := task, status := .Failed, bytes_downloaded := 0,
         duration := duration, error := some ("Request error: " ++ e) }, [])
  | .ok resp =>
      if statusIsSuccess resp.status then
        match createFile with
        | .error e =>
            ({ task := task, status := .Failed, bytes_downloaded := 0,
               duration := duration, error := some ("IO error: " ++ e) }, [])
        | .ok _ =>
            let r := runStream rate_limit resp.steps 0
            match r.2.2 with
            | none =>
                ({ task := task, status := .Success, bytes_downloaded := r.1,
                   duration := duration, error := none }, r.2.1)
            | some msg =>
                ({ task := task, status := .Failed, bytes_downloaded := r.1,
                   duration := duration, error := some msg }, r.2.1)
      else
        ({ task := task, status := .Failed, bytes_downloaded := 0,
           duration := duration,
           error := some ("Download failed: HTTP error: "
             ++ statusDisplay resp.status ++ " for URL: " ++ task.url) }, [])

/-- Substring containment, as infix of the character lists. -/
def strContains (s t : String) : Prop := t.data <:+: s.data

instance decStrContains (s t : String) : Decidable (strContains s t) :=
  List.decidableInfix t.data s.data

theorem strContains_middle (a b c : String) : strContains (a ++ b ++ c) b := by
  unfold strContains
  rw [String.data_append, String.data_append]
  exact ⟨a.data, c.data, by simp [List.append_assoc]⟩

/-- Splitting a character list at every tab. -/
def splitFieldsChars : List Char → List (List Char)
  | [] => [[]]
  | c :: cs =>
      if c = '\t' then [] :: splitFieldsChars cs
      else
        match splitFieldsChars cs with
        | f :: fs => (c :: f) :: fs
        | [] => [[c]]

/-- Field decomposition of one manifest line by the tab delimiter
(`parser.rs` lines 19-21 configure the csv reader with `delimiter(b'\t')`).
The embedding covers the quote-free, CR-free fragment of the csv format,
which is the fragment the manifest claims exercise. -/
def splitFields (line : String) : List String :=
  (splitFieldsChars line.data).map fun cs => String.mk cs

/-- The `Some(...).filter(|s| !s.is_empty())` idiom of `parse_tsv`
(`parser.rs` lines 34-43). -/
def optField (s : String) : Option String :=
  if s = "" then none else some s

/-- The record-to-entry conversion of `parse_tsv` (`parser.rs` lines 28-44):
`record.get(i).unwrap_or("")` for each of the ten columns. -/
def mkEntry (record : List String) : InventoryEntry :=
  { code := record.getD 0 ""
    entry_type := record.getD 1 ""
    source_dataset := record.getD 2 ""
    last_data_change := record.getD 3 ""
    last_structural_change := record.getD 4 ""
    tsv_url := optField (record.getD 5 "")
    csv_url := optField (record.getD 6 "")
    sdmx_url := optField (record.getD 7 "")
    structure_url := optField (record.getD 8 "")
    browser_url := optField (record.getD 9 "") }

/-- The length check of the csv crate in its default non-flexible mode:
every data record must have exactly as many fields as the first record,
otherwise reading stops with an `UnequalLengths` error. -/
def checkLengths (expected : Nat) : List (List String) → Except String (List (List String))
  | [] => .ok []
  | r :: rs =>
      if r.length = expected then
        (checkLengths expected rs).map fun tail => r :: tail
      else
        .error "CSV error: found record with different number of fields"

/-- The record iteration of `csv::ReaderBuilder::new().delimiter(b'\t')`
(`parser.rs` lines 19-26) under the crate's defaults: blank lines are
skipped, the first (non-blank) line is consumed as the header row and NOT
yielded by `records()`, and every yielded record must match the header's
field count (`flexible` defaults to off). -/
def csvRecords (lines : List String) : Except String (List (List String)) :=
  let rows := (lines.filter fun l => l ≠ "").map splitFields
  match rows with
  | [] => .ok []
  | header :: data => checkLengths header.length data

/-- `parser.rs` `parse_tsv` (lines 9-51) on the lines of the manifest file:
iterate the csv records, fail on the first record error (mapped through
`DownloaderError::ParseError`), convert each record to an `InventoryEntry`. -/
def parse_tsv (lines : List String) : Except String (List InventoryEntry) :=
  (csvRecords lines).map fun rs => rs.map mkEntry

/-- `Except.isOk` without the core `Except` namespace helpers. -/
def exceptOk (r : Except String (List InventoryEntry)) : Bool :=
  match r with
  | .ok _ => true
  | .error _ => false

/-- Bytes written before the stream stops: the sizes of the successfully
written chunks preceding the first failure (spec-side measurement). -/
def writtenBytes : List ChunkStep → Nat
  | .ok size :: rest => size + writtenBytes rest
  | _ => 0

/-- Chunks received from the stream before the loop stops, in order
(spec-side measurement): a chunk counts as received once the stream
yielded it, whether or not its write then succeeds. -/
def receivedChunkSizes : List ChunkStep → List Nat
  | [] => []
  | .readErr _ :: _ => []
  | .writeErr size _ :: _ => [size]
  | .ok size :: rest => size :: receivedChunkSizes rest

/-- The sleep durations of a trace, in order. -/
def sleepsOf (tr : List TraceEvent) : List ℚ :=
  tr.filterMap fun ev =>
    match ev with
    | .sleep q => some q
    | .write _ => none

theorem runStream_bytes (rl : Option Nat) :
    ∀ (steps : List ChunkStep) (d : Nat),
      (runStream rl steps d).1 = d + writtenBytes steps := by
  intro steps
  induction steps with
  | nil => intro d; simp [runStream, writtenBytes]
  | cons step rest ih =>
      intro d
      cases step with
      | readErr msg => simp [runStream, writtenBytes]
      | writeErr size msg => simp [runStream, writtenBytes]
      | ok size => simp [runStream, writtenBytes, ih (d + size)]; omega

/-- A sample entry with no downloadable URL, used to instantiate theorems. -/
def sampleEntryNone : InventoryEntry :=
  { code := "aact"
    entry_type := "dataset"
    source_dataset := "aact"
    last_data_change := "2024-01-01"
    last_structural_change := "2024-01-02"
    tsv_url := none
    csv_url := none
    sdmx_url := none
    structure_url := none
    browser_url := none }

/-- A sample task used to instantiate theorems. -/
def sampleTask : DownloadTask :=
  create_task sampleEntryNone "http://example/data.tsv" "out" .TSV

/-- A sample transfer outcome used to instantiate theorems. -/
def sampleExec (t : DownloadTask) : DownloadReport :=
  { task := t, status := .Success, bytes_downloaded := 7, duration := 1, error := none }

/-- C1. For every inventory list and output directory, the Task Builder
produces the concatenation, over entries in input order, of one
`DownloadTask` per present downloadable URL, inspecting TSV, CSV, SDMX in
that fixed order; an entry with zero present URLs yields zero tasks, the
task count is the sum over entries of the count of present URLs, and every
task's destination path is the output directory joined with
`{code}_{entry_type}.{ext}`, the extension determined by the format. -/
theorem c1_task_builder :
    (∀ (inventory : List InventoryEntry) (output_dir : String),
      create_download_tasks inventory output_dir
        = inventory.flatMap fun e => entryTasks e output_dir)
  ∧ (∀ (inventory : List InventoryEntry) (output_dir : String),
      (create_download_tasks inventory output_dir).length
        = (inventory.map presentUrlCount).sum)
  ∧ (∀ (e : InventoryEntry) (output_dir : String),
      (entryTasks e output_dir).map (fun t => t.format)
        = [FileFormat.TSV, FileFormat.CSV, FileFormat.SDMX].filter
            fun f => (urlOf e f).isSome)
  ∧ (∀ (e : InventoryEntry) (output_dir : String),
      e.tsv_url = none → e.csv_url = none → e.sdmx_url = none →
        entryTasks e output_dir = [])
  ∧ (∀ (inventory : List InventoryEntry) (output_dir : String)
      (t : DownloadTask), t ∈ create_download_tasks inventory output_dir →
        t.output_path = pathJoin output_dir
          (t.entry.code ++ "_" ++ t.entry.entry_type ++ "."
            ++ formatExtension t.format)) := by
  refine ⟨create_download_tasks_eq_flatMap, ?_, ?_, ?_, ?_⟩
  · intro inventory output_dir
    rw [create_download_tasks_eq_flatMap]
    induction inventory with
    | nil => simp
    | cons e rest ih => simp [List.flatMap_cons, ih, entryTasks_length]
  · intro e output_dir
    unfold entryTasks urlOf
    cases htsv : e.tsv_url <;> cases hcsv : e.csv_url <;> cases hsdmx : e.sdmx_url <;>
      simp [optTask, create_task, htsv, hcsv, hsdmx]
  · intro e output_dir h1 h2 h3
    simp [entryTasks, optTask, h1, h2, h3]
  · intro inventory output_dir t ht
    rw [create_download_tasks_eq_flatMap] at ht
    rcases List.mem_flatMap.mp ht with ⟨e, _, hmem⟩
    unfold entryTasks at hmem
    have hcases : ∃ url fmt, t = create_task e url output_dir fmt := by
      rcases List.mem_append.mp hmem with h | h
      · rcases List.mem_append.mp h with h | h
        · cases htsv : e.tsv_url with
          | none => rw [htsv] at h; simp [optTask] at h
          | some url =>
              rw [htsv] at h; simp [optTask] at h
              exact ⟨url, .TSV, h⟩
        · cases hcsv : e.csv_url with
          | none => rw [hcsv] at h; simp [optTask] at h
          | some url =>
              rw [hcsv] at h; simp [optTask] at h
              exact ⟨url, .CSV, h⟩
      · cases hsdmx : e.sdmx_url with
        | none => rw [hsdmx] at h; simp [optTask] at h
        | some url =>
            rw [hsdmx] at h; simp [optTask] at h
            exact ⟨url, .SDMX, h⟩
    rcases hcases with ⟨url, fmt, rfl⟩
    simp [create_task]

/-- Witness for C1 at a concrete entry with zero present URLs. -/
theorem c1_task_builder_witness :
    entryTasks sampleEntryNone "out" = [] :=
  c1_task_builder.2.2.2.1 sampleEntryNone "out" rfl rfl rfl

/-- C2. For every task list and parallelism bound `N ≥ 1`, the scheduler
partitions the list into consecutive groups of size at most `N` (every
group but possibly the last exactly `N`, order preserved within and across
groups, so the groups flatten back to the task list), each group is run as
a unit before the next (`scheduleReports` folds the groups in order), and
the report list is in task-list order; 5 tasks with `N = 2` form groups of
sizes `[2, 2, 1]`. -/
theorem c2_scheduler :
    (∀ (n : Nat), 1 ≤ n →
      ∀ (tasks : List DownloadTask) (exec : DownloadTask → DownloadReport),
        ∃ cs, sliceChunks n tasks = some cs
          ∧ cs.flatten = tasks
          ∧ (∀ c ∈ cs, c.length ≤ n)
          ∧ (∀ c ∈ cs.dropLast, c.length = n)
          ∧ scheduleReports n exec tasks = some (tasks.map exec))
  ∧ (∀ t1 t2 t3 t4 t5 : DownloadTask,
      (sliceChunks 2 [t1, t2, t3, t4, t5]).map (fun cs => cs.map List.length)
        = some [2, 2, 1]) := by
  constructor
  · intro n hn tasks exec
    match n, hn with
    | m + 1, _ =>
        refine ⟨chunksPos m tasks, rfl, chunksPos_flatten m tasks,
          chunksPos_length_le m tasks, chunksPos_dropLast_length m tasks,
          scheduleReports_pos m exec tasks⟩
  · intro t1 t2 t3 t4 t5
    rfl

/-- Witness for C2 at `N = 2` and three concrete tasks. -/
theorem c2_scheduler_witness :
    scheduleReports 2 sampleExec [sampleTask, sampleTask, sampleTask]
      = some ([sampleTask, sampleTask, sampleTask].map sampleExec) := by
  obtain ⟨cs, _, _, _, _, h5⟩ :=
    c2_scheduler.1 2 (by decide) [sampleTask, sampleTask, sampleTask] sampleExec
  exact h5

/-- C3. For every list of reports, the summary built by the aggregation
step of `download_all` satisfies: total equals the report count, successes
equal the number of reports with status `Success`, failures equal total
minus successes (so successes plus failures always equal the total), and
the byte total equals the sum of every report's `bytes_downloaded`. -/
theorem c3_aggregator :
    ∀ (reports : List DownloadReport) (dur : Nat),
      (mkSummary reports dur).total_downloads = reports.length
    ∧ (mkSummary reports dur).successful_downloads
        = reports.countP (fun r => r.status == DownloadStatus.Success)
    ∧ (mkSummary reports dur).failed_downloads
        = (mkSummary reports dur).total_downloads
          - (mkSummary reports dur).successful_downloads
    ∧ (mkSummary reports dur).successful_downloads
          + (mkSummary reports dur).failed_downloads
        = (mkSummary reports dur).total_downloads
    ∧ (mkSummary reports dur).total_bytes_downloaded
        = (reports.map fun r => r.bytes_downloaded).sum
    ∧ (mkSummary reports dur).reports = reports := by
  intro reports dur
  refine ⟨rfl, ?_, rfl, ?_, rfl, rfl⟩
  · unfold mkSummary
    simp [List.countP_eq_length_filter]
  · unfold mkSummary
    dsimp only
    have hle : (reports.filter fun r => r.status == DownloadStatus.Success).length
        ≤ reports.length := List.length_filter_le _ _
    omega

/-- C5. The process exits with an error if manifest parsing fails, if the
download phase fails, or if any individual download failed; it exits with
success exactly when every task in the aggregated reports succeeded. -/
theorem c5_exit_status :
    (∀ (e : String) (dr : Except String DownloadSummary),
      mainResult (.error e) dr = .failure)
  ∧ (∀ (inv : List InventoryEntry) (e : String),
      mainResult (.ok inv) (.error e) = .failure)
  ∧ (∀ (inv : List InventoryEntry) (reports : List DownloadReport) (dur : Nat),
      mainResult (.ok inv) (.ok (mkSummary reports dur)) = .success
        ↔ ∀ r ∈ reports, r.status = .Success) := by
  refine ⟨fun e dr => rfl, fun inv e => rfl, ?_⟩
  intro inv reports dur
  unfold mainResult mkSummary
  have hle : (reports.filter fun r => r.status == DownloadStatus.Success).length
      ≤ reports.length := List.length_filter_le _ _
  constructor
  · intro h r hr
    by_cases hpos :
        reports.length
          - (reports.filter fun r => r.status == DownloadStatus.Success).length > 0
    · simp [hpos] at h
    · have heq : (reports.filter fun r => r.status == DownloadStatus.Success).length
          = reports.length := by omega
      have hfilter : reports.filter (fun r => r.status == DownloadStatus.Success)
          = reports :=
        List.Sublist.eq_of_length (List.filter_sublist reports) heq
      have := List.filter_eq_self.mp hfilter r hr
      exact eq_of_beq this
  · intro h
    have hfilter : reports.filter (fun r => r.status == DownloadStatus.Success)
        = reports :=
      List.filter_eq_self.mpr fun r hr => beq_iff_eq.mpr (h r hr)
    rw [hfilter]
    simp

theorem strContains_parts (s a b c : String)
    (h : s.data = a.data ++ b.data ++ c.data) : strContains s b :=
  ⟨a.data, c.data, h.symm⟩

/-- The 404 response used to instantiate the executor theorems. -/
def resp404 : RespModel :=
  { status := 404, content_length := none, steps := [] }

/-- C4. A task whose HTTP GET returns a non-2xx status yields a report
with status `Failed` whose error message contains the status code and the
task's URL (for 404 it contains `"404"`), with `bytes_downloaded = 0`
since the failure is pre-stream; when the stream does run,
`bytes_downloaded` is the byte count written before any failure; and in
every report the error field is present iff the status is `Failed`. -/
theorem c4_transfer_failure :
    (∀ (rl : Option Nat) (task : DownloadTask) (resp : RespModel)
      (createFile : Except String Unit) (dur : Nat),
      statusIsSuccess resp.status = false →
        (download_file rl task (.ok resp) createFile dur).1.status = .Failed
      ∧ (download_file rl task (.ok resp) createFile dur).1.bytes_downloaded = 0
      ∧ (∃ msg, (download_file rl task (.ok resp) createFile dur).1.error = some msg
          ∧ strContains msg (toString resp.status)
          ∧ strContains msg task.url)
      ∧ (resp.status = 404 →
          ∃ msg, (download_file rl task (.ok resp) createFile dur).1.error = some msg
            ∧ strContains msg "404"))
  ∧ (∀ (rl : Option Nat) (task : DownloadTask) (send : Except String RespModel)
      (createFile : Except String Unit) (dur : Nat),
      (download_file rl task send createFile dur).1.error.isSome = true
        ↔ (download_file rl task send createFile dur).1.status = .Failed)
  ∧ (∀ (rl : Option Nat) (task : DownloadTask) (resp : RespModel) (dur : Nat),
      statusIsSuccess resp.status = true →
        (download_file rl task (.ok resp) (.ok ()) dur).1.bytes_downloaded
          = writtenBytes resp.steps) := by
  refine ⟨?_, ?_, ?_⟩
  · intro rl task resp createFile dur h
    simp only [download_file, h, Bool.false_eq_true, if_false]
    refine ⟨trivial, trivial, ⟨_, rfl, ?_, ?_⟩, ?_⟩
    · exact strContains_parts _ "Download failed: HTTP error: " (toString resp.status)
        (" " ++ canonicalReason resp.status ++ " for URL: " ++ task.url)
        (by simp [statusDisplay, String.data_append, List.append_assoc])
    · exact strContains_parts _
        ("Download failed: HTTP error: " ++ statusDisplay resp.status ++ " for URL: ")
        task.url ""
        (by simp [String.data_append, List.append_assoc])
    · intro h404
      refine ⟨_, rfl, ?_⟩
      rw [h404]
      exact strContains_parts _ "Download failed: HTTP error: " "404"
        (" " ++ canonicalReason 404 ++ " for URL: " ++ task.url)
        (by simp [statusDisplay, String.data_append, List.append_assoc]; rfl)
  · intro rl task send createFile dur
    cases send with
    | error e => simp [download_file]
    | ok resp =>
        by_cases h : statusIsSuccess resp.status
        · cases createFile with
          | error e => simp [download_file, h]
          | ok u =>
              cases hr : (runStream rl resp.steps 0).2.2 with
              | none => simp [download_file, h, hr]
              | some msg => simp [download_file, h, hr]
        · simp [download_file, h]
  · intro rl task resp dur h
    cases hr : (runStream rl resp.steps 0).2.2 with
    | none =>
        simp [download_file, h, hr, runStream_bytes rl resp.steps 0]
    | some msg =>
        simp [download_file, h, hr, runStream_bytes rl resp.steps 0]

/-- Witness for C4 at a concrete 404 response. -/
theorem c4_transfer_failure_witness :
    (download_file none sampleTask (.ok resp404) (.ok ()) 5).1.status = .Failed
  ∧ (download_file none sampleTask (.ok resp404) (.ok ()) 5).1.bytes_downloaded = 0 := by
  have h := c4_transfer_failure.1 none sampleTask resp404 (.ok ()) 5 (by decide)
  exact ⟨h.1, h.2.1⟩

theorem runStream_ok_trace (R : Nat) (size : Nat) (rest : List ChunkStep) (d : Nat) :
    (runStream (some R) (ChunkStep.ok size :: rest) d).2.1
      = .sleep ((size : ℚ) / (R : ℚ))
          :: .write size :: (runStream (some R) rest (d + size)).2.1 := by
  simp [runStream, delayEvents]

theorem runStream_cap_sleeps (R : Nat) :
    ∀ (steps : List ChunkStep) (d : Nat),
      sleepsOf ((runStream (some R) steps d).2.1)
        = (receivedChunkSizes steps).map fun s => (s : ℚ) / (R : ℚ) := by
  intro steps
  induction steps with
  | nil => intro d; rfl
  | cons step rest ih =>
      intro d
      cases step with
      | readErr msg => simp [runStream, receivedChunkSizes, sleepsOf]
      | writeErr size msg =>
          simp [runStream, delayEvents, receivedChunkSizes, sleepsOf]
      | ok size =>
          rw [runStream_ok_trace]
          simp [receivedChunkSizes, sleepsOf, List.filterMap_cons]
          exact ih (d + size)

theorem runStream_cap_precede (R : Nat) :
    ∀ (steps : List ChunkStep) (d : Nat),
      (∀ b, ((runStream (some R) steps d).2.1)[0]? ≠ some (.write b))
    ∧ (∀ i b, ((runStream (some R) steps d).2.1)[i + 1]? = some (.write b) →
        ((runStream (some R) steps d).2.1)[i]?
          = some (.sleep ((b : ℚ) / (R : ℚ)))) := by
  intro steps
  induction steps with
  | nil =>
      intro d
      constructor
      · intro b; simp [runStream]
      · intro i b hi; simp [runStream] at hi
  | cons step rest ih =>
      intro d
      cases step with
      | readErr msg =>
          constructor
          · intro b; simp [runStream]
          · intro i b hi; simp [runStream] at hi
      | writeErr size msg =>
          constructor
          · intro b; simp [runStream, delayEvents]
          · intro i b hi; simp [runStream, delayEvents] at hi
      | ok size =>
          obtain ⟨ih0, ihP⟩ := ih (d + size)
          constructor
          · intro b
            rw [runStream_ok_trace]
            simp
          · intro i b hi
            rw [runStream_ok_trace] at hi ⊢
            match i with
            | 0 =>
                simp at hi ⊢
                rw [hi]
            | 1 =>
                simp at hi
                exact absurd hi (ih0 b)
            | Nat.succ (Nat.succ j) =>
                simp only [List.getElem?_cons_succ] at hi ⊢
                exact ihP j b hi

theorem runStream_none_sleeps :
    ∀ (steps : List ChunkStep) (d : Nat),
      sleepsOf ((runStream none steps d).2.1) = [] := by
  intro steps
  induction steps with
  | nil => intro d; rfl
  | cons step rest ih =>
      intro d
      cases step with
      | readErr msg => simp [runStream, sleepsOf]
      | writeErr size msg => simp [runStream, delayEvents, sleepsOf]
      | ok size =>
          simp only [runStream, delayEvents, sleepsOf, List.nil_append,
            List.filterMap_cons]
          exact ih (d + size)

theorem runStream_none_no_sleep :
    ∀ (steps : List ChunkStep) (d : Nat) (q : ℚ),
      TraceEvent.sleep q ∉ (runStream none steps d).2.1 := by
  intro steps
  induction steps with
  | nil => intro d q; simp [runStream]
  | cons step rest ih =>
      intro d q
      cases step with
      | readErr msg => simp [runStream]
      | writeErr size msg => simp [runStream, delayEvents]
      | ok size =>
          simp [runStream, delayEvents]
          exact ih (d + size) q

/-- C6. With a byte-rate cap `R` configured, the executor sleeps exactly
`chunk_size / R` seconds for each chunk received, and that sleep
immediately precedes the chunk's write (each write of `b` bytes in the
trace is preceded by a sleep of `b / R`); with no cap configured, the
trace contains no sleep at all. -/
theorem c6_rate_limit :
    (∀ (R : Nat) (steps : List ChunkStep), 0 < R →
      sleepsOf ((runStream (some R) steps 0).2.1)
          = (receivedChunkSizes steps).map (fun s => (s : ℚ) / (R : ℚ))
        ∧ (∀ i b, ((runStream (some R) steps 0).2.1)[i + 1]? = some (.write b) →
            ((runStream (some R) steps 0).2.1)[i]?
              = some (.sleep ((b : ℚ) / (R : ℚ)))))
  ∧ (∀ (steps : List ChunkStep),
      sleepsOf ((runStream none steps 0).2.1) = []
        ∧ ∀ q, TraceEvent.sleep q ∉ (runStream none steps 0).2.1) := by
  constructor
  · intro R steps _
    exact ⟨runStream_cap_sleeps R steps 0, (runStream_cap_precede R steps 0).2⟩
  · intro steps
    exact ⟨runStream_none_sleeps steps 0, runStream_none_no_sleep steps 0⟩

/-- Witness for C6 at a cap of 2 bytes per second and one 3-byte chunk. -/
theorem c6_rate_limit_witness :
    0 < 2
  ∧ sleepsOf ((runStream (some 2) [ChunkStep.ok 3] 0).2.1)
      = (receivedChunkSizes [ChunkStep.ok 3]).map (fun s => (s : ℚ) / (2 : ℚ)) :=
  ⟨by decide, (c6_rate_limit.1 2 [ChunkStep.ok 3] (by decide)).1⟩

theorem checkLengths_ok (expected : Nat) :
    ∀ (rows : List (List String)), (∀ r ∈ rows, r.length = expected) →
      checkLengths expected rows = .ok rows := by
  intro rows
  induction rows with
  | nil => intro _; rfl
  | cons r rs ih =>
      intro h
      have hr : r.length = expected := h r (List.mem_cons_self r rs)
      have hrs := ih fun x hx => h x (List.mem_cons_of_mem r hx)
      simp [checkLengths, hr, hrs, Except.map]

/-- On a manifest whose lines are all non-blank and all have the same
field count as the first line, `parse_tsv` succeeds and returns one entry
per line after the first: the csv reader consumes the first line as the
header row. -/
theorem parse_tsv_uniform (h : String) (t : List String)
    (hne : ∀ l ∈ h :: t, l ≠ "")
    (hlen : ∀ l ∈ t, (splitFields l).length = (splitFields h).length) :
    parse_tsv (h :: t) = .ok (t.map fun l => mkEntry (splitFields l)) := by
  unfold parse_tsv csvRecords
  have hfilter : (h :: t).filter (fun l => l ≠ "") = h :: t :=
    List.filter_eq_self.mpr fun l hl => decide_eq_true (hne l hl)
  rw [hfilter]
  simp only [List.map_cons]
  rw [checkLengths_ok (splitFields h).length (t.map splitFields)
    (by intro r hr; rcases List.mem_map.mp hr with ⟨l, hl, rfl⟩; exact hlen l hl)]
  simp [Except.map, List.map_map, Function.comp]

/-- First line of the two-line manifests used below: ten tab-separated
fields. -/
def line10A : String := "codeA\ttypeA\tsrcA\td1\td2\tu1\tu2\tu3\tu4\tu5"

/-- Second ten-field line. -/
def line10B : String := "codeB\ttypeB\tsrcB\td3\td4\tv1\tv2\tv3\tv4\tv5"

/-- A two-field line. -/
def line2 : String := "x\ty"

/-- Number of entries of a successful parse, `none` on a parse error. -/
def parsedEntryCount (r : Except String (List InventoryEntry)) : Option Nat :=
  match r with
  | .ok es => some es.length
  | .error _ => none

/-- C7 counterexample: a two-line manifest for which `parse_tsv` returns
one entry, not two — the first line is consumed as a header row, so the
entry count is NOT the line count. -/
theorem c7_counterexample :
    parsedEntryCount (parse_tsv [line10A, line10B])
      ≠ some ([line10A, line10B].length) := by decide

/-- C7 amended: `parse_tsv` skips the first (non-blank) line as a header
row; on a manifest of non-blank lines of uniform field count it returns
one entry per line after the first, so the entry count is the line count
minus one, and the first line is never returned as data. -/
theorem c7_header_skipped :
    ∀ (h : String) (t : List String),
      (∀ l ∈ h :: t, l ≠ "") →
      (∀ l ∈ t, (splitFields l).length = (splitFields h).length) →
      parse_tsv (h :: t) = .ok (t.map fun l => mkEntry (splitFields l))
        ∧ (parse_tsv (h :: t)).map List.length = .ok ((h :: t).length - 1) := by
  intro h t hne hlen
  have hmain := parse_tsv_uniform h t hne hlen
  refine ⟨hmain, ?_⟩
  rw [hmain]
  simp [Except.map]

/-- Witness for C7 (amended) at the concrete two-line manifest. -/
theorem c7_header_skipped_witness :
    parse_tsv [line10A, line10B] = .ok ([line10B].map fun l => mkEntry (splitFields l))
      ∧ (parse_tsv [line10A, line10B]).map List.length
          = .ok ([line10A, line10B].length - 1) :=
  c7_header_skipped line10A [line10B] (by decide) (by decide)

/-- C8 counterexample: a manifest whose second row has two fields while
the first has ten is rejected with a parse error (the csv crate's default
non-flexible mode), not padded with empty strings. -/
theorem c8_counterexample :
    exceptOk (parse_tsv [line10A, line2]) = false := by decide

/-- C8 amended: missing trailing columns are treated as empty strings
(`record.get(i).unwrap_or("")`) — converting a record equals converting
its padding to ten fields with `""`, and a record with at most five
fields has all three downloadable URL fields absent — but only rows whose
field count matches the first line's reach that conversion: a manifest of
non-blank lines of uniform field count parses successfully, while a row
whose field count differs from the first line's is a parse error. -/
theorem c8_missing_columns :
    (∀ (record : List String),
      mkEntry record = mkEntry (record ++ List.replicate (10 - record.length) ""))
  ∧ (∀ (record : List String), record.length ≤ 5 →
      (mkEntry record).tsv_url = none
        ∧ (mkEntry record).csv_url = none
        ∧ (mkEntry record).sdmx_url = none)
  ∧ (∀ (h : String) (t : List String),
      (∀ l ∈ h :: t, l ≠ "") →
      (∀ l ∈ t, (splitFields l).length = (splitFields h).length) →
      parse_tsv (h :: t) = .ok (t.map fun l => mkEntry (splitFields l))) := by
  refine ⟨?_, ?_, parse_tsv_uniform⟩
  · intro record
    have pad : ∀ (i : Nat),
        ((record ++ List.replicate (10 - record.length) "")[i]?).getD ""
          = (record[i]?).getD "" := by
      intro i
      rcases Nat.lt_or_ge i record.length with hlt | hge
      · rw [List.getElem?_append_left hlt]
      · rw [List.getElem?_append_right hge, List.getElem?_eq_none hge,
          List.getElem?_replicate]
        split <;> rfl
    simp [mkEntry, pad]
  · intro record hle
    have h5 : record[5]? = none := List.getElem?_eq_none (by omega)
    have h6 : record[6]? = none := List.getElem?_eq_none (by omega)
    have h7 : record[7]? = none := List.getElem?_eq_none (by omega)
    refine ⟨?_, ?_, ?_⟩ <;> simp [mkEntry, h5, h6, h7, optField]

/-- Witness for C8 (amended) at a concrete two-field record. -/
theorem c8_missing_columns_witness :
    (mkEntry ["x", "y"]).tsv_url = none
  ∧ (mkEntry ["x", "y"]).csv_url = none
  ∧ (mkEntry ["x", "y"]).sdmx_url = none :=
  c8_missing_columns.2.1 ["x", "y"] (by decide)

/-- C9. A failure while writing `download_stats.csv` is logged and
swallowed: `download_all` still returns `Ok(summary)`, the summary it
returns is identical to the one returned when the write succeeds, and the
failure shows up only as a logged error line. -/
theorem c9_stats_failure_swallowed :
    ∀ (p : Nat) (exec : DownloadTask → DownloadReport)
      (inv : List InventoryEntry) (dir : String) (dur : Nat) (e : String),
      1 ≤ p →
      downloadAllResult (download_all p exec inv dir dur (.error e))
          = downloadAllResult (download_all p exec inv dir dur (.ok ()))
        ∧ ∃ s, download_all p exec inv dir dur (.error e)
              = some (.ok s, ["Failed to write stats CSV: " ++ e])
            ∧ download_all p exec inv dir dur (.ok ()) = some (.ok s, []) := by
  intro p exec inv dir dur e hp
  match p, hp with
  | m + 1, _ =>
      simp only [download_all, scheduleReports_pos, downloadAllResult,
        Option.map_some']
      exact ⟨trivial, _, rfl, rfl⟩

/-- Witness for C9 at a concrete failing statistics write. -/
theorem c9_stats_failure_swallowed_witness :
    downloadAllResult (download_all 1 sampleExec [] "out" 0 (.error "disk full"))
      = downloadAllResult (download_all 1 sampleExec [] "out" 0 (.ok ())) :=
  (c9_stats_failure_swallowed 1 sampleExec [] "out" 0 "disk full" (by decide)).1

/-- C10. `download_all` is total only under the unstated precondition
`parallelism ≥ 1`: with `parallelism = 0` the `tasks.chunks(0)` call
panics (modelled as `none`) for every inventory, while every positive
bound yields a result; and the CLI parses `"0"` as a valid value for the
parallelism argument, so the constraint is enforced nowhere. -/
theorem c10_parallelism_zero :
    cliParseParallelism "0" = some 0
  ∧ (∀ (exec : DownloadTask → DownloadReport) (inv : List InventoryEntry)
      (dir : String) (dur : Nat) (sw : Except String Unit),
      download_all 0 exec inv dir dur sw = none)
  ∧ (∀ (p : Nat), 1 ≤ p →
      ∀ (exec : DownloadTask → DownloadReport) (inv : List InventoryEntry)
        (dir : String) (dur : Nat) (sw : Except String Unit),
        (download_all p exec inv dir dur sw).isSome = true) := by
  refine ⟨by decide, ?_, ?_⟩
  · intro exec inv dir dur sw
    rfl
  · intro p hp exec inv dir dur sw
    match p, hp with
    | m + 1, _ =>
        simp only [download_all, scheduleReports_pos]
        rfl

/-- Witness for C10 at `parallelism = 1`. -/
theorem c10_parallelism_zero_witness :
    (download_all 1 sampleExec [] "out" 0 (.ok ())).isSome = true :=
  c10_parallelism_zero.2.2 1 (by decide) sampleExec [] "out" 0 (.ok ())

end Eurostat
